import Mathlib

/-!
Shallow embedding of `src/hand_tracking_module.py` (class `HandDetector`).

Modelling conventions:
* A normalized landmark from the MediaPipe engine is a pair of rational
  coordinates (the engine emits floats in `[0, 1]`; we use `ℚ` for exact
  arithmetic).
* An image is modelled by its pixel dimensions `w`, `h` (from `img.shape`);
  drawing calls (`cv2.circle`, `cv2.rectangle`, `cv2.line`,
  `mpDraw.draw_landmarks`) do not affect any value the claims mention, so the
  image passes through unchanged and is dropped from return values.
* Python exceptions (`AttributeError` on `None.multi_hand_landmarks`,
  `IndexError` on list indexing, `ValueError` on `min([])`) are modelled as
  `none`; a normal return is `some`.
* Python `int()` truncates toward zero; Python `//` is floor division;
  Python list indexing accepts negative indices counting from the end.
* The engine result `self.results.multi_hand_landmarks` is `None` or a list
  of hands; both `None` and `[]` are falsy in the `if` on line 61, so it is
  modelled as a single `List Hand` with `[]` for the falsy cases.
-/

namespace HandTracking

/-- Python `int()` on a rational: truncation toward zero. A rational is stored
in lowest terms with positive denominator, so truncating division of the
numerator by the denominator is exactly truncation toward zero. -/
def pyInt (q : ℚ) : ℤ := q.num.tdiv q.den

/-- Python list indexing `l[i]` for `i : ℤ`: a nonnegative index reads from the
front, a negative index `i` reads element `len l + i`; anything else raises
`IndexError` (modelled as `none`). -/
def pyGet (l : List α) (i : ℤ) : Option α :=
  if 0 ≤ i then l[i.toNat]?
  else if 0 ≤ (l.length : ℤ) + i then l[((l.length : ℤ) + i).toNat]?
  else none

/-- One raw normalized landmark from the engine: `lm.x`, `lm.y`. -/
structure NormLandmark where
  x : ℚ
  y : ℚ
deriving Repr, DecidableEq, Inhabited

/-- One detected hand: the ordered list `myHand.landmark` (21 entries in
MediaPipe output). -/
abbrev Hand := List NormLandmark

/-- One entry `[id, cx, cy]` of the cached `self.lmList`. -/
structure LM where
  id : ℕ
  cx : ℤ
  cy : ℤ
deriving Repr, DecidableEq, Inhabited

/-- The mutable state of a `HandDetector` instance: `self.results` (the raw
detection result, `none` before any `findHands` call) and the cached
`self.lmList`. Configuration fields (`mode`, `maxHands`, confidences) only
parameterize the external engine and are omitted. -/
structure HandDetector where
  results : Option (List Hand)
  lmList : List LM
deriving Repr, DecidableEq

/-- The `__init__` state: `self.results = None`, `self.lmList = []`
(lines 30-31). -/
def initHandDetector : HandDetector := { results := none, lmList := [] }

/-- Embeds `findHands` (lines 33-47): the engine output for the supplied image
is an oracle argument `detected`; the call stores it in `self.results`.
Drawing and the returned image are dropped (see module conventions). -/
def findHands (st : HandDetector) (detected : List Hand) : HandDetector :=
  { st with results := some detected }

/-- Tip landmark IDs for each finger, thumb to pinky (line 6). -/
def tipIds : List ℕ := [4, 8, 12, 16, 20]

/-- The landmark loop of `findPosition` (lines 64-69): for `id, lm` in
`enumerate(myHand.landmark)`, append `[id, int(lm.x * w), int(lm.y * h)]`. -/
def pixelList (myHand : Hand) (w h : ℕ) : List LM :=
  myHand.enum.map fun p => ⟨p.1, pyInt (p.2.x * w), pyInt (p.2.y * h)⟩

/-- Body of `findPosition` (lines 57-78) after the `self.results` dereference:
given the hands list, the image dimensions `w`, `h` and `handNo`, produce the
new `self.lmList` and the bounding box, or `none` for a raised exception
(`IndexError` from a negative `handNo` below `-len`, `ValueError` from
`min([])` on a zero-landmark hand). -/
def findPositionCore (hands : List Hand) (w h : ℕ) (handNo : ℤ) :
    Option (List LM × List ℤ) :=
  if hands = [] then some ([], [])
  else if handNo < (hands.length : ℤ) then
    match pyGet hands handNo with
    | none => none
    | some myHand =>
      match ((pixelList myHand w h).map LM.cx).min?,
            ((pixelList myHand w h).map LM.cx).max?,
            ((pixelList myHand w h).map LM.cy).min?,
            ((pixelList myHand w h).map LM.cy).max? with
      | some xmin, some xmax, some ymin, some ymax =>
        some (pixelList myHand w h, [xmin, ymin, xmax, ymax])
      | _, _, _, _ => none
  else some ([], [])

/-- Embeds `findPosition` (lines 49-78). Dereferencing `self.results` when it
is still `None` raises `AttributeError` (`none`). On success the cached
`self.lmList` is replaced by the freshly built list and the pair
`(self.lmList, bbox)` is returned. -/
def findPosition (st : HandDetector) (w h : ℕ) (handNo : ℤ) :
    Option (HandDetector × List LM × List ℤ) :=
  match st.results with
  | none => none
  | some hands =>
    match findPositionCore hands w h handNo with
    | none => none
    | some (lml, bbox) => some ({ st with lmList := lml }, lml, bbox)

/-- Embeds `fingersUp` (lines 80-102), a function of the cached `self.lmList`.
Indexing a too-short list raises `IndexError` (`none`); with the empty list it
returns `[]` without error. -/
def fingersUp (lmList : List LM) : Option (List ℕ) :=
  if lmList = [] then some []
  else do
    let tipT ← lmList[(4 : ℕ)]?      -- tipIds[0]
    let jntT ← lmList[(3 : ℕ)]?      -- tipIds[0] - 1
    let thumb : ℕ := if tipT.cx > jntT.cx then 1 else 0
    let others ← [1, 2, 3, 4].mapM fun i => do
      let tid ← tipIds[i]?
      let tip ← lmList[tid]?
      let low ← lmList[tid - 2]?
      pure (if tip.cy < low.cy then (1 : ℕ) else 0)
    pure (thumb :: others)

/-- Embeds `findDistance` (lines 104-127) up to the final `math.hypot`: the
first component is the SQUARED distance `(x2-x1)^2 + (y2-y1)^2`; the scalar
the code returns is its real square root (see `findDistance`). The second
component is the coordinate list `[x1, y1, x2, y2, cx, cy]`, with the
midpoint by Python floor division `//`. An out-of-range landmark index
raises `IndexError` (`none`); with no cached list the code returns
`0, img, []` without error. -/
def findDistanceData (lmList : List LM) (p1 p2 : ℤ) : Option (ℤ × List ℤ) :=
  if lmList = [] then some (0, [])
  else do
    let l1 ← pyGet lmList p1
    let l2 ← pyGet lmList p2
    let cx := Int.fdiv (l1.cx + l2.cx) 2
    let cy := Int.fdiv (l1.cy + l2.cy) 2
    pure ((l2.cx - l1.cx) ^ 2 + (l2.cy - l1.cy) ^ 2,
      [l1.cx, l1.cy, l2.cx, l2.cy, cx, cy])

/-- Embeds `findDistance` including the `math.hypot` call, as an exact real
square root of the squared distance. -/
noncomputable def findDistance (lmList : List LM) (p1 p2 : ℤ) :
    Option (ℝ × List ℤ) :=
  (findDistanceData lmList p1 p2).map fun r => (Real.sqrt (r.1 : ℝ), r.2)

/-- A pixel point as a point of the real Euclidean plane, for stating that the
scalar of `findDistance` is the genuine Euclidean metric distance. -/
noncomputable def pixelPoint (l : LM) : EuclideanSpace ℝ (Fin 2) :=
  ![(l.cx : ℝ), (l.cy : ℝ)]

/-- A concrete 21-landmark hand with every landmark at normalized
`(0.5, 0.5)`, the input of the spec's concrete `findPosition` scenario. -/
def demoHand : Hand := List.replicate 21 ⟨1/2, 1/2⟩

/-- A concrete 21-landmark hand with every landmark at normalized
`(15/16, 15/16)`; in a 2-by-2 image, truncation and rounding of
`15/16 * 2 = 1.875` disagree. -/
def cexHand : Hand := List.replicate 21 ⟨15/16, 15/16⟩

/-- A concrete one-landmark hand at normalized `(0.5, 0.5)`, for exercising
the success path of `findPosition` on a fully explicit output. -/
def oneHand : Hand := [⟨1/2, 1/2⟩]

/-- A concrete 21-entry cached LandmarkList: landmark 1 at pixel `(3, 4)`,
every other landmark `i` at pixel `(0, 0)`. -/
def sampleLm : List LM :=
  (List.range 21).map fun i => if i = 1 then ⟨1, 3, 4⟩ else ⟨i, 0, 0⟩

/-- A concrete 21-entry cached LandmarkList realizing the spec's finger
scenario: fingertip landmark 8 at `y = 50` above joint landmark 6 at
`y = 100` (index finger extended), thumb tip landmark 4 at `x = 5` right of
joint landmark 3 at `x = 2` (thumb flag set). -/
def fingerLm : List LM :=
  (List.range 21).map fun i =>
    if i = 3 then ⟨3, 2, 0⟩
    else if i = 4 then ⟨4, 5, 0⟩
    else if i = 6 then ⟨6, 0, 100⟩
    else if i = 8 then ⟨8, 0, 50⟩
    else ⟨i, 0, 0⟩

end HandTracking

namespace HandTracking

/-! ## Helper lemmas about Python indexing and the landmark pixel list -/

lemma pyGet_ne_nil {l : List α} {i : ℤ} {a : α} (h : pyGet l i = some a) :
    l ≠ [] := by
  rintro rfl
  unfold pyGet at h
  split at h
  · simp at h
  · split at h <;> simp at h

lemma pyGet_lt {l : List α} {i : ℤ} {a : α} (h : pyGet l i = some a) :
    i < (l.length : ℤ) := by
  unfold pyGet at h
  split at h
  · rename_i hi
    obtain ⟨hlt, -⟩ := List.getElem?_eq_some.mp h
    omega
  · rename_i hi
    have : ¬ 0 ≤ i := hi
    omega

lemma pixelList_length (myHand : Hand) (w h : ℕ) :
    (pixelList myHand w h).length = myHand.length := by
  simp [pixelList, List.enum_length]

lemma pixelList_getD (myHand : Hand) (w h : ℕ) {i : ℕ} (hi : i < myHand.length) :
    (pixelList myHand w h).getD i default =
      ⟨i, pyInt ((myHand.getD i default).x * w),
          pyInt ((myHand.getD i default).y * h)⟩ := by
  simp [pixelList, List.getD_eq_getElem?_getD, List.getElem?_map,
    List.getElem?_enum, List.getElem?_eq_getElem hi]

lemma pixelList_ne_nil {myHand : Hand} (hne : myHand ≠ []) (w h : ℕ) :
    pixelList myHand w h ≠ [] := by
  intro hc
  apply hne
  have := congrArg List.length hc
  rw [pixelList_length] at this
  exact List.length_eq_zero.mp this

lemma findPosition_eq (st : HandDetector) (hands : List Hand) (w h : ℕ) (n : ℤ)
    (hres : st.results = some hands) :
    findPosition st w h n =
      match findPositionCore hands w h n with
      | none => none
      | some (lml, bbox) => some ({ st with lmList := lml }, lml, bbox) := by
  unfold findPosition
  rw [hres]

lemma findPositionCore_some (w h : ℕ) {hands : List Hand} {n : ℤ} {myHand : Hand}
    (hget : pyGet hands n = some myHand) (hne : myHand ≠ []) :
    ∃ xmin xmax ymin ymax,
      findPositionCore hands w h n =
        some (pixelList myHand w h, [xmin, ymin, xmax, ymax]) ∧
      ((pixelList myHand w h).map LM.cx).min? = some xmin ∧
      ((pixelList myHand w h).map LM.cx).max? = some xmax ∧
      ((pixelList myHand w h).map LM.cy).min? = some ymin ∧
      ((pixelList myHand w h).map LM.cy).max? = some ymax := by
  have hnil := pyGet_ne_nil hget
  have hlt := pyGet_lt hget
  have hpl : pixelList myHand w h ≠ [] := pixelList_ne_nil hne w h
  have exmin : ∀ f : LM → ℤ, ∃ m, ((pixelList myHand w h).map f).min? = some m := by
    intro f
    cases hx : ((pixelList myHand w h).map f).min? with
    | none => exact absurd (List.map_eq_nil_iff.mp (List.min?_eq_none_iff.mp hx)) hpl
    | some m => exact ⟨m, rfl⟩
  have exmax : ∀ f : LM → ℤ, ∃ m, ((pixelList myHand w h).map f).max? = some m := by
    intro f
    cases hx : ((pixelList myHand w h).map f).max? with
    | none => exact absurd (List.map_eq_nil_iff.mp (List.max?_eq_none_iff.mp hx)) hpl
    | some m => exact ⟨m, rfl⟩
  obtain ⟨xmin, hxmin⟩ := exmin LM.cx
  obtain ⟨xmax, hxmax⟩ := exmax LM.cx
  obtain ⟨ymin, hymin⟩ := exmin LM.cy
  obtain ⟨ymax, hymax⟩ := exmax LM.cy
  refine ⟨xmin, xmax, ymin, ymax, ?_, hxmin, hxmax, hymin, hymax⟩
  unfold findPositionCore
  rw [if_neg hnil, if_pos hlt, hget]
  simp [hxmin, hxmax, hymin, hymax]

lemma findPosition_getD_eq (st : HandDetector) (hands : List Hand) (w h : ℕ)
    (n : ℤ) (myHand : Hand) (i : ℕ)
    (hres : st.results = some hands) (hget : pyGet hands n = some myHand)
    (hi : i < myHand.length) :
    ((findPosition st w h n).map fun r => r.2.1.getD i default) =
      some ⟨i, pyInt ((myHand.getD i default).x * w),
              pyInt ((myHand.getD i default).y * h)⟩ := by
  have hne : myHand ≠ [] := by rintro rfl; simp at hi
  obtain ⟨xmin, xmax, ymin, ymax, hcore, -, -, -, -⟩ := findPositionCore_some w h hget hne
  rw [findPosition_eq st hands w h n hres, hcore]
  simp [pixelList, List.getElem?_map, List.getElem?_enum, List.getElem?_eq_getElem hi]

lemma findPosition_length_eq (st : HandDetector) (hands : List Hand) (w h : ℕ)
    (n : ℤ) (myHand : Hand)
    (hres : st.results = some hands) (hget : pyGet hands n = some myHand)
    (hne : myHand ≠ []) :
    ((findPosition st w h n).map fun r => r.2.1.length) = some myHand.length := by
  obtain ⟨xmin, xmax, ymin, ymax, hcore, -, -, -, -⟩ := findPositionCore_some w h hget hne
  rw [findPosition_eq st hands w h n hres, hcore]
  simp [pixelList_length]

end HandTracking

namespace HandTracking

/-! ## C1: pixel conversion formula of findPosition -/

/-- C1 (amended): for every detected hand and image, `findPosition` converts
each normalized landmark to pixel coordinates by Python `int()` truncation
toward zero, `x_pixel = int(x_norm * imageWidth)` and
`y_pixel = int(y_norm * imageHeight)`, using the actual dimensions of the
image passed to the call, and the produced LandmarkList has one entry per
landmark of the selected hand. (The claim's `round` is wrong in general —
see the counterexample — but landmark 0 at normalized `(0.5, 0.5)` in a
100-wide, 200-high image still yields pixel `(50, 100)`, because there
truncation and rounding agree; see the witness.) -/
theorem findPosition_pixel_truncation (st : HandDetector) (hands : List Hand)
    (w h : ℕ) (n : ℤ) (myHand : Hand) (i : ℕ)
    (hres : st.results = some hands) (hget : pyGet hands n = some myHand)
    (hi : i < myHand.length) :
    ((findPosition st w h n).map fun r => r.2.1.getD i default) =
      some ⟨i, pyInt ((myHand.getD i default).x * w),
              pyInt ((myHand.getD i default).y * h)⟩ ∧
    ((findPosition st w h n).map fun r => r.2.1.length) = some myHand.length := by
  refine ⟨findPosition_getD_eq st hands w h n myHand i hres hget hi, ?_⟩
  exact findPosition_length_eq st hands w h n myHand hres hget
    (by rintro rfl; simp at hi)

/-- Witness for C1: the spec's concrete scenario — landmark 0 at normalized
`(0.5, 0.5)` in a 100-by-200 image yields pixel `(50, 100)`, and the
LandmarkList has 21 entries. -/
theorem findPosition_pixel_truncation_witness :
    ((findPosition ⟨some [demoHand], []⟩ 100 200 0).map
        fun r => r.2.1.getD 0 default) = some ⟨0, 50, 100⟩ ∧
    ((findPosition ⟨some [demoHand], []⟩ 100 200 0).map
        fun r => r.2.1.length) = some 21 := by
  have h := findPosition_pixel_truncation ⟨some [demoHand], []⟩ [demoHand]
    100 200 0 demoHand 0 rfl rfl (by simp [demoHand])
  refine ⟨?_, ?_⟩
  · rw [h.1]
    norm_num [demoHand, pyInt]
  · rw [h.2]
    simp [demoHand]

/-- C1 counterexample: with every landmark at normalized `(15/16, 15/16)` in
a 2-by-2 image, the code computes pixel `(1, 1)` for landmark 0 — truncation
of `15/16 * 2 = 1.875` — while the formula claimed by the spec,
`round(x_norm * imageWidth)`, gives `2`. -/
theorem findPosition_round_cex :
    ((findPosition ⟨some [cexHand], []⟩ 2 2 0).map
        fun r => r.2.1.getD 0 default) = some ⟨0, 1, 1⟩ ∧
    round ((cexHand.getD 0 default).x * ((2 : ℕ) : ℚ)) = 2 ∧
    round ((cexHand.getD 0 default).y * ((2 : ℕ) : ℚ)) = 2 := by
  refine ⟨?_, ?_, ?_⟩
  · rw [findPosition_getD_eq ⟨some [cexHand], []⟩ [cexHand] 2 2 0 cexHand 0
      rfl rfl (by simp [cexHand])]
    norm_num [cexHand, pyInt]
    decide
  · norm_num [cexHand, round_eq]
  · norm_num [cexHand, round_eq]

end HandTracking

namespace HandTracking

/-! ## C2: out-of-range hand index handling in findPosition -/

/-- C2 (amended): if the requested hand index is at least the number of
detected hands, or no hands were detected, `findPosition` returns an empty
LandmarkList and an empty BoundingBox and raises no error (the cached list is
cleared). Not every out-of-range index soft-fails, however: the guard
`handNo < len(...)` does not range-check negative indices, and an index
below `-len` raises `IndexError` instead of returning the empty result. -/
theorem findPosition_out_of_range (st : HandDetector) (hands : List Hand)
    (w h : ℕ) (n : ℤ) (hres : st.results = some hands) :
    ((hands.length : ℤ) ≤ n ∨ hands = [] →
      findPosition st w h n = some ({ st with lmList := [] }, [], [])) ∧
    (hands ≠ [] → n < -(hands.length : ℤ) → findPosition st w h n = none) := by
  constructor
  · intro hcase
    rw [findPosition_eq st hands w h n hres]
    by_cases hn : hands = []
    · unfold findPositionCore
      rw [if_pos hn]
    · have hge : (hands.length : ℤ) ≤ n := by tauto
      unfold findPositionCore
      rw [if_neg hn, if_neg (by omega)]
  · intro hnn hlt
    rw [findPosition_eq st hands w h n hres]
    have hnone : pyGet hands n = none := by
      unfold pyGet
      rw [if_neg (by omega), if_neg (by omega)]
    unfold findPositionCore
    rw [if_neg hnn, if_pos (by omega), hnone]

/-- Witness for C2: with one detected hand, index 5 gives the empty
soft-failure result, and index `-25` raises (is `none`). -/
theorem findPosition_out_of_range_witness :
    findPosition ⟨some [demoHand], []⟩ 2 2 5 =
      some (⟨some [demoHand], []⟩, [], []) ∧
    findPosition ⟨some [demoHand], []⟩ 2 2 (-25) = none := by
  constructor
  · exact (findPosition_out_of_range ⟨some [demoHand], []⟩ [demoHand] 2 2 5
      rfl).1 (Or.inl (by decide))
  · exact (findPosition_out_of_range ⟨some [demoHand], []⟩ [demoHand] 2 2
      (-25) rfl).2 (by decide) (by decide)

/-- C2 counterexample: with exactly one detected hand, the out-of-range index
`-2` passes the `handNo < len` guard, and `multi_hand_landmarks[-2]` raises
`IndexError` — not the claimed empty-result-without-error. -/
theorem findPosition_neg_index_cex :
    findPosition ⟨some [demoHand], []⟩ 2 2 (-2) = none := rfl

end HandTracking

namespace HandTracking

/-! ## fingersUp evaluation -/

lemma fingersUp_eval {lmList : List LM} (hlen : lmList.length = 21) :
    fingersUp lmList = some
      [(if (lmList.getD 4 default).cx > (lmList.getD 3 default).cx then 1 else 0),
       (if (lmList.getD 8 default).cy < (lmList.getD 6 default).cy then 1 else 0),
       (if (lmList.getD 12 default).cy < (lmList.getD 10 default).cy then 1 else 0),
       (if (lmList.getD 16 default).cy < (lmList.getD 14 default).cy then 1 else 0),
       (if (lmList.getD 20 default).cy < (lmList.getD 18 default).cy then 1 else 0)] := by
  have hne : lmList ≠ [] := by rintro rfl; simp at hlen
  have hg : ∀ i : ℕ, i < 21 → lmList[i]? = some (lmList.getD i default) := by
    intro i hi
    rw [List.getElem?_eq_getElem (by omega)]
    exact congrArg some (List.getD_eq_getElem lmList default (by omega)).symm
  unfold fingersUp
  rw [if_neg hne]
  simp only [bind, hg 4 (by norm_num), hg 3 (by norm_num), hg 8 (by norm_num),
    hg 6 (by norm_num), hg 12 (by norm_num), hg 10 (by norm_num),
    hg 16 (by norm_num), hg 14 (by norm_num), hg 20 (by norm_num),
    hg 18 (by norm_num), List.mapM_cons, List.mapM_nil, tipIds,
    List.getElem?_cons_zero, List.getElem?_cons_succ, Option.some_bind,
    Option.pure_def]

end HandTracking

namespace HandTracking

/-! ## C3 and C4: fingersUp -/

/-- C3: for every cached 21-entry LandmarkList, `fingersUp` computes the
thumb flag as 1 exactly when the x-pixel of landmark 4 exceeds the x-pixel
of landmark 3, and for the four fingers with tip ids 8, 12, 16, 20 the flag
is 1 exactly when the tip's y-pixel is strictly smaller than the y-pixel of
the landmark two positions below it (ids 6, 10, 14, 18), else 0. -/
theorem fingersUp_comparisons (lmList : List LM) (hlen : lmList.length = 21) :
    fingersUp lmList = some
      [(if (lmList.getD 4 default).cx > (lmList.getD 3 default).cx then 1 else 0),
       (if (lmList.getD 8 default).cy < (lmList.getD 6 default).cy then 1 else 0),
       (if (lmList.getD 12 default).cy < (lmList.getD 10 default).cy then 1 else 0),
       (if (lmList.getD 16 default).cy < (lmList.getD 14 default).cy then 1 else 0),
       (if (lmList.getD 20 default).cy < (lmList.getD 18 default).cy then 1 else 0)] :=
  fingersUp_eval hlen

/-- Witness for C3: the spec's finger scenario — tip landmark 8 at `y = 50`
against joint landmark 6 at `y = 100` sets the index flag; thumb tip at
`x = 5` against joint at `x = 2` sets the thumb flag; all other flags 0. -/
theorem fingersUp_comparisons_witness :
    fingersUp fingerLm = some [1, 1, 0, 0, 0] := by
  rw [fingersUp_comparisons fingerLm (by decide)]
  decide

/-- C4: `fingersUp` returns exactly 5 flags, each 0 or 1, in fixed
thumb-to-pinky order, on every cached 21-entry LandmarkList, and returns the
empty sequence without error when the cached LandmarkList is empty. -/
theorem fingersUp_shape :
    fingersUp ([] : List LM) = some [] ∧
    ∀ lmList : List LM, lmList.length = 21 →
      (fingersUp lmList).map List.length = some 5 ∧
      (fingersUp lmList).map (fun fl => fl.all fun x => decide (x = 0 ∨ x = 1)) =
        some true := by
  refine ⟨rfl, fun lmList hlen => ?_⟩
  rw [fingersUp_eval hlen]
  constructor
  · simp
  · simp only [Option.map_some', List.all_cons, List.all_nil]
    split_ifs <;> simp

/-- Witness for C4: on a concrete 21-entry LandmarkList the flag list has
length 5 and every flag is 0 or 1. -/
theorem fingersUp_shape_witness :
    (fingersUp sampleLm).map List.length = some 5 ∧
    (fingersUp sampleLm).map (fun fl => fl.all fun x => decide (x = 0 ∨ x = 1)) =
      some true :=
  fingersUp_shape.2 sampleLm (by decide)

end HandTracking

namespace HandTracking

/-! ## C5, C6, C8: findDistance -/

/-- C5: with no cached LandmarkList, `findDistance` returns distance 0, the
image unchanged and an empty coordinate list; with a non-empty cached list
and entries `l1`, `l2` found at indices `p1`, `p2`, it returns the Euclidean
metric distance between the two pixel points together with the six-element
coordinate list `[x1, y1, x2, y2, midX, midY]`, the midpoint computed by
integer (floor) division. -/
theorem findDistance_euclidean :
    (∀ p1 p2 : ℤ, findDistance [] p1 p2 = some (0, [])) ∧
    ∀ (lmList : List LM) (p1 p2 : ℤ) (l1 l2 : LM),
      lmList ≠ [] → pyGet lmList p1 = some l1 → pyGet lmList p2 = some l2 →
      findDistance lmList p1 p2 =
        some (dist (pixelPoint l1) (pixelPoint l2),
          [l1.cx, l1.cy, l2.cx, l2.cy,
           Int.fdiv (l1.cx + l2.cx) 2, Int.fdiv (l1.cy + l2.cy) 2]) := by
  constructor
  · intro p1 p2
    simp [findDistance, findDistanceData]
  · intro lmList p1 p2 l1 l2 hne h1 h2
    have hsq : Real.sqrt (((l2.cx : ℝ) - (l1.cx : ℝ)) ^ 2 +
          ((l2.cy : ℝ) - (l1.cy : ℝ)) ^ 2) =
        dist (pixelPoint l1) (pixelPoint l2) := by
      rw [EuclideanSpace.dist_eq, Fin.sum_univ_two]
      simp only [pixelPoint, Matrix.cons_val_zero, Matrix.cons_val_one,
        Matrix.head_cons, Real.dist_eq, sq_abs]
      congr 1
      ring
    unfold findDistance findDistanceData
    rw [if_neg hne]
    simp [h1, h2, hsq]

/-- Witness for C5: the spec's concrete scenario — `id1` at pixel `(0, 0)`
and `id2` at pixel `(3, 4)` give distance `5` and midpoint `(1, 2)`. -/
theorem findDistance_euclidean_witness :
    findDistance sampleLm 0 1 = some (5, [0, 0, 3, 4, 1, 2]) := by
  have h := findDistance_euclidean.2 sampleLm 0 1 ⟨0, 0, 0⟩ ⟨1, 3, 4⟩
    (by decide) rfl rfl
  rw [h]
  have hd : dist (pixelPoint ⟨0, 0, 0⟩) (pixelPoint ⟨1, 3, 4⟩) = 5 := by
    rw [EuclideanSpace.dist_eq, Fin.sum_univ_two]
    simp only [pixelPoint, Matrix.cons_val_zero, Matrix.cons_val_one,
      Matrix.head_cons, Real.dist_eq, sq_abs]
    norm_num
    rw [show (25 : ℝ) = 5 ^ 2 by norm_num, Real.sqrt_sq (by norm_num)]
  rw [hd]
  norm_num
  decide

/-- C8: the scalar distance of `findDistance` is symmetric in the two
landmark indices, on every cached LandmarkList, index errors included. -/
theorem findDistance_symmetric (lmList : List LM) (p1 p2 : ℤ) :
    (findDistance lmList p1 p2).map Prod.fst =
      (findDistance lmList p2 p1).map Prod.fst := by
  unfold findDistance findDistanceData
  by_cases hne : lmList = []
  · simp [hne]
  · rw [if_neg hne, if_neg hne]
    cases h1 : pyGet lmList p1 with
    | none => cases h2 : pyGet lmList p2 <;> simp
    | some a =>
      cases h2 : pyGet lmList p2 with
      | none => simp
      | some b =>
        simp only [Option.bind_eq_bind, Option.some_bind, Option.pure_def,
          Option.map_some', Prod.fst]
        congr 2
        push_cast
        ring

end HandTracking

namespace HandTracking

lemma pyGet_none_of_out {l : List α} {i : ℤ}
    (h : (l.length : ℤ) ≤ i ∨ i < -(l.length : ℤ)) : pyGet l i = none := by
  unfold pyGet
  rcases h with hge | hlt
  · rw [if_pos (by omega)]
    exact List.getElem?_eq_none (by omega)
  · rw [if_neg (by omega), if_neg (by omega)]

/-- C6 (amended): with a non-empty cached LandmarkList, a landmark index that
is no valid Python index — at least the list length, or below its negation —
makes `findDistance` raise `IndexError`, a failure distinct from the
soft-failure `(0, image, [])` returned when nothing is cached. Indices in
`[-len, -1]`, although outside `[0, 20]`, are NOT rejected: Python
wrap-around silently reads from the end (see the counterexample). -/
theorem findDistance_invalid_index (lmList : List LM) (p1 p2 : ℤ)
    (hne : lmList ≠ [])
    (h : (lmList.length : ℤ) ≤ p1 ∨ p1 < -(lmList.length : ℤ) ∨
         (lmList.length : ℤ) ≤ p2 ∨ p2 < -(lmList.length : ℤ)) :
    findDistanceData lmList p1 p2 = none := by
  unfold findDistanceData
  rw [if_neg hne]
  rcases h with h | h | h | h
  · simp [pyGet_none_of_out (Or.inl h)]
  · simp [pyGet_none_of_out (Or.inr h)]
  · cases hp : pyGet lmList p1 <;> simp [hp, pyGet_none_of_out (Or.inl h)]
  · cases hp : pyGet lmList p1 <;> simp [hp, pyGet_none_of_out (Or.inr h)]

/-- Witness for C6: on a 21-entry cached list, index 21 raises. -/
theorem findDistance_invalid_index_witness :
    findDistanceData sampleLm 21 0 = none :=
  findDistance_invalid_index sampleLm 21 0 (by decide) (Or.inl (by decide))

/-- C6 counterexample: index `-1` is outside `[0, 20]`, yet on a 21-entry
cached list `findDistance` silently returns a result — Python wrap-around
reads landmark 20 — instead of signalling an invalid-argument failure. -/
theorem findDistance_neg_index_cex :
    findDistanceData sampleLm (-1) 0 = some (0, [0, 0, 0, 0, 0, 0]) ∧
    (-1 : ℤ) < 0 := by
  constructor
  · decide
  · decide

end HandTracking

namespace HandTracking

/-! ## C7: bounding box bounds -/

lemma int_min?_le {l : List ℤ} {m x : ℤ} (hm : l.min? = some m) (hx : x ∈ l) :
    m ≤ x :=
  ((List.le_min?_iff (fun a b c => le_min_iff) hm).1 le_rfl) x hx

lemma int_le_max? {l : List ℤ} {m x : ℤ} (hm : l.max? = some m) (hx : x ∈ l) :
    x ≤ m :=
  ((List.max?_le_iff (fun a b c => max_le_iff) hm).1 le_rfl) x hx

lemma findPositionCore_inv {hands : List Hand} {w h : ℕ} {n : ℤ}
    {lml : List LM} {bbox : List ℤ}
    (hcore : findPositionCore hands w h n = some (lml, bbox))
    (hne : lml ≠ []) :
    ∃ xmin xmax ymin ymax,
      bbox = [xmin, ymin, xmax, ymax] ∧
      (lml.map LM.cx).min? = some xmin ∧ (lml.map LM.cx).max? = some xmax ∧
      (lml.map LM.cy).min? = some ymin ∧ (lml.map LM.cy).max? = some ymax := by
  unfold findPositionCore at hcore
  split at hcore
  · simp at hcore
    exact absurd hcore.1 hne
  · split at hcore
    · split at hcore
      · exact absurd hcore (by simp)
      · split at hcore
        · rename_i myHand hget xmin xmax ymin ymax hxmin hxmax hymin hymax
          simp only [Option.some.injEq, Prod.mk.injEq] at hcore
          obtain ⟨hl, hb⟩ := hcore
          subst hl
          exact ⟨xmin, xmax, ymin, ymax, hb.symm, hxmin, hxmax, hymin, hymax⟩
        · exact absurd hcore (by simp)
    · simp at hcore
      exact absurd hcore.1 hne

/-- C7: for every non-empty LandmarkList produced by `findPosition`, the
returned BoundingBox `[xmin, ymin, xmax, ymax]` contains the pixel
coordinates of every landmark in the list: `xmin ≤ x ≤ xmax` and
`ymin ≤ y ≤ ymax`. -/
theorem findPosition_bbox_bounds (st st' : HandDetector) (w h : ℕ) (n : ℤ)
    (lml : List LM) (bbox : List ℤ)
    (hEq : findPosition st w h n = some (st', lml, bbox)) (hne : lml ≠ []) :
    bbox.length = 4 ∧
    ∀ e ∈ lml, bbox.getD 0 0 ≤ e.cx ∧ e.cx ≤ bbox.getD 2 0 ∧
               bbox.getD 1 0 ≤ e.cy ∧ e.cy ≤ bbox.getD 3 0 := by
  cases hres : st.results with
  | none =>
    unfold findPosition at hEq
    rw [hres] at hEq
    exact absurd hEq (by simp)
  | some hands =>
    rw [findPosition_eq st hands w h n hres] at hEq
    cases hcore : findPositionCore hands w h n with
    | none =>
      rw [hcore] at hEq
      exact absurd hEq (by simp)
    | some p =>
      obtain ⟨lml0, bbox0⟩ := p
      rw [hcore] at hEq
      simp only [Option.some.injEq, Prod.mk.injEq] at hEq
      obtain ⟨-, hl, hb⟩ := hEq
      subst hl
      subst hb
      obtain ⟨xmin, xmax, ymin, ymax, hbb, hxmin, hxmax, hymin, hymax⟩ :=
        findPositionCore_inv hcore hne
      subst hbb
      refine ⟨rfl, fun e he => ?_⟩
      have hx := List.mem_map_of_mem LM.cx he
      have hy := List.mem_map_of_mem LM.cy he
      exact ⟨int_min?_le hxmin hx, int_le_max? hxmax hx,
             int_min?_le hymin hy, int_le_max? hymax hy⟩

end HandTracking

namespace HandTracking

lemma oneHand_eval : findPosition ⟨some [oneHand], []⟩ 100 200 0 =
    some (⟨some [oneHand], [⟨0, 50, 100⟩]⟩, [⟨0, 50, 100⟩],
      [50, 100, 50, 100]) := by
  have hpl : pixelList oneHand 100 200 = [⟨0, 50, 100⟩] := by
    show [(⟨0, pyInt ((1 : ℚ)/2 * ((100 : ℕ) : ℚ)),
            pyInt ((1 : ℚ)/2 * ((200 : ℕ) : ℚ))⟩ : LM)] = [⟨0, 50, 100⟩]
    norm_num [pyInt]
  have hcore : findPositionCore [oneHand] 100 200 0 =
      some ([⟨0, 50, 100⟩], [50, 100, 50, 100]) := by
    unfold findPositionCore
    rw [if_neg (by decide), if_pos (by decide),
      show pyGet [oneHand] 0 = some oneHand from rfl]
    simp [hpl]
  rw [findPosition_eq ⟨some [oneHand], []⟩ [oneHand] 100 200 0 rfl, hcore]

/-- Witness for C7: for the one-landmark hand at normalized `(0.5, 0.5)` in
a 100-by-200 image, the landmark pixel `(50, 100)` lies inside the returned
bounding box `[50, 100, 50, 100]`. -/
theorem findPosition_bbox_bounds_witness :
    ([50, 100, 50, 100] : List ℤ).getD 0 0 ≤ (50 : ℤ) ∧
    (50 : ℤ) ≤ ([50, 100, 50, 100] : List ℤ).getD 2 0 ∧
    ([50, 100, 50, 100] : List ℤ).getD 1 0 ≤ (100 : ℤ) ∧
    (100 : ℤ) ≤ ([50, 100, 50, 100] : List ℤ).getD 3 0 :=
  (findPosition_bbox_bounds ⟨some [oneHand], []⟩
    ⟨some [oneHand], [⟨0, 50, 100⟩]⟩ 100 200 0 [⟨0, 50, 100⟩]
    [50, 100, 50, 100] oneHand_eval (by decide)).2 ⟨0, 50, 100⟩ (by decide)

/-! ## C9: findPosition overwrites the cached LandmarkList wholesale -/

/-- C9: the result of `findPosition` — its new cached LandmarkList included —
does not depend on the previously cached LandmarkList, and on success the
new cached list is exactly the returned one while the stored DetectionResult
is untouched: no entry of the old cache can leak into any subsequent
bounding box, `fingersUp`, or `findDistance` computation. -/
theorem findPosition_overwrites :
    (∀ (r : Option (List Hand)) (l1 l2 : List LM) (w h : ℕ) (n : ℤ),
      findPosition ⟨r, l1⟩ w h n = findPosition ⟨r, l2⟩ w h n) ∧
    (∀ (st st' : HandDetector) (w h : ℕ) (n : ℤ) (lml : List LM)
      (bbox : List ℤ), findPosition st w h n = some (st', lml, bbox) →
      st'.lmList = lml ∧ st'.results = st.results) := by
  constructor
  · intro r l1 l2 w h n
    cases r with
    | none => rfl
    | some hands =>
      rw [findPosition_eq ⟨some hands, l1⟩ hands w h n rfl,
        findPosition_eq ⟨some hands, l2⟩ hands w h n rfl]
  · intro st st' w h n lml bbox hEq
    cases hres : st.results with
    | none =>
      unfold findPosition at hEq
      rw [hres] at hEq
      exact absurd hEq (by simp)
    | some hands =>
      rw [findPosition_eq st hands w h n hres] at hEq
      cases hcore : findPositionCore hands w h n with
      | none =>
        rw [hcore] at hEq
        exact absurd hEq (by simp)
      | some p =>
        obtain ⟨lml0, bbox0⟩ := p
        rw [hcore] at hEq
        simp only [Option.some.injEq, Prod.mk.injEq] at hEq
        obtain ⟨hst, hl, -⟩ := hEq
        subst hl
        rw [← hst]
        exact ⟨rfl, hres⟩

/-- Witness for C9: a stale cached entry `[0, 1, 2]` is discarded by a
`findPosition` call whose DetectionResult is empty. -/
theorem findPosition_overwrites_witness :
    (⟨some [], []⟩ : HandDetector).lmList = ([] : List LM) ∧
    (⟨some [], []⟩ : HandDetector).results =
      (⟨some [], [⟨0, 1, 2⟩]⟩ : HandDetector).results :=
  findPosition_overwrites.2 ⟨some [], [⟨0, 1, 2⟩]⟩ ⟨some [], []⟩ 2 2 0 [] [] rfl

/-! ## C10: findPosition before any findHands call raises -/

/-- C10: a freshly constructed HandDetector stores the sentinel `None` as
its DetectionResult, so calling `findPosition` before any `findHands` call
dereferences it and raises (`AttributeError`) rather than returning the
empty soft-failure result; once `findHands` has run, the soft-failure path
applies (an empty detection or an index at least the hand count gives the
empty result without error). -/
theorem findPosition_requires_detect :
    initHandDetector.results = none ∧
    (∀ (w h : ℕ) (n : ℤ), findPosition initHandDetector w h n = none) ∧
    (∀ (st : HandDetector) (d : List Hand) (w h : ℕ) (n : ℤ),
      d = [] ∨ (d.length : ℤ) ≤ n →
      findPosition (findHands st d) w h n =
        some ({ st with results := some d, lmList := [] }, [], [])) := by
  refine ⟨rfl, fun w h n => rfl, fun st d w h n hd => ?_⟩
  rw [findPosition_eq (findHands st d) d w h n rfl]
  by_cases hnil : d = []
  · unfold findPositionCore
    rw [if_pos hnil]
    rfl
  · have hge : (d.length : ℤ) ≤ n := by tauto
    unfold findPositionCore
    rw [if_neg hnil, if_neg (by omega)]
    rfl

/-- Witness for C10: after a `findHands` call that detected nothing,
`findPosition` yields the empty soft-failure result instead of raising. -/
theorem findPosition_requires_detect_witness :
    findPosition (findHands initHandDetector []) 2 2 0 =
      some (⟨some [], []⟩, [], []) :=
  findPosition_requires_detect.2.2 initHandDetector [] 2 2 0 (Or.inl rfl)

end HandTracking
